import Mathlib

/-!
Shallow embedding of the ledger core of `tipchune` (`src/primitive/blockchain.rs`,
`src/primitive/crypto.rs`), together with theorems checking the natural-language
specification against it.

Modelling conventions:

* SHA-256 (`sha2` crate) is idealised as an injective function of the sequence of
  `update` calls fed to the hasher: a digest is the term recording those updates.
  `Hash.raw` stands for an externally supplied 32-byte value, `Hash.new` for
  `Sha256::new()`, `Hash.updHash`/`Hash.updNat` for `hasher.update(..)` with a
  digest / a fixed-width little-endian integer, `Hash.pubKeyHash m` for the digest
  of the DER encoding of the RSA public key with key material `m`, and
  `Hash.sigOf m d` for the RSA signature produced by the private key `m` over `d`.
  The first byte of a digest is only determined for `Hash.raw`; for symbolic
  digests the model fixes it to 0 (theorems about the PoW bit test quantify over
  the byte through `Hash.raw`, and concrete ledgers use difficulty 0, where the
  mask is empty and the choice is irrelevant).
* RSA (`rsa` crate) is idealised: `PublicKey.hash` always succeeds (the code's
  `EncodingError` path is unreachable for well-formed keys), and a signature
  verifies exactly when it is the matching key's signature over the expected
  digest (`PublicKey.verify`).
* Rust `HashMap<Hash, V>` is modelled as an association list searched from the
  head, with `insert` consing at the head, so the most recent insertion shadows
  older bindings, matching `HashMap` observationally under `get`.
* Machine integers: `usize` amounts and heights are `Nat`; the `u128` height
  overflow check of `checked_add` is explicit in `checked_add_u128`; `u8` bit
  operations in the PoW test use `Nat.land` and explicit shifts.
* Rust panics/aborts (slice index out of bounds, `assert!`, arithmetic overflow
  of a shift in a debug build) are modelled as the distinguished error
  `VError.abort`, kept apart from the typed `PrimitiveError` rejections, whose
  distinct `err!` messages are modelled as the remaining `VError` constructors.
-/

set_option linter.unusedVariables false

namespace Tipchune

/-- Idealised SHA-256 digest: the term records exactly which `update` calls built
the digest, so distinct update sequences give distinct digests (collision
freeness), mirroring `sha2::Sha256` as used by the source. -/
inductive Hash where
  /-- An externally supplied 32-byte value (an address, a genesis hash, a forged
  signature): `bytes` lists its bytes. -/
  | raw (bytes : List Nat)
  /-- `Sha256::new()` finalised with no updates. -/
  | new
  /-- `hasher.update(d)` where `d` is a 32-byte digest. -/
  | updHash (state : Hash) (d : Hash)
  /-- `hasher.update(n.to_le_bytes())` for a machine integer `n` of `width`
  bytes (`usize` = 8, `u128` = 16). -/
  | updNat (state : Hash) (n : Nat) (width : Nat)
  /-- SHA-256 of the DER encoding of the RSA public key with material `m`
  (`PublicKey::hash`). -/
  | pubKeyHash (m : Nat)
  /-- RSA signature of the private key with material `m` over `digest`
  (`PrivateKey::sign`). -/
  | sigOf (m : Nat) (digest : Hash)
deriving DecidableEq

/-- Byte `self[0]` of a digest; determined only for `Hash.raw`, fixed to 0 for
symbolic digests (see the module docstring). -/
def Hash.firstByte : Hash → Nat
  | .raw bytes => bytes.headD 0
  | _ => 0

/-- Errors of the primitive layer. The source's `PrimitiveError::Uncertain(msg)`
values are identified by their distinct `err!` messages, one constructor per
message; `abort` stands for a Rust panic (debug-build semantics), which is not a
recoverable `PrimitiveError` at all. -/
inductive VError where
  /-- A Rust panic / debug abort (slice index out of bounds, failed `assert!`,
  shift-amount overflow), with the panic message. -/
  | abort (msg : String)
  /-- "Received block does not meets difficulty of PoW" -/
  | insufficientWork
  /-- "transaction output referred in transaction input does not found" -/
  | danglingReference
  /-- "public key of input does not match with address of output" -/
  | ownershipMismatch
  /-- "failed to verify signatured hash" -/
  | invalidSignature
  /-- "output amount of transaction exceeded input amount of transaction" -/
  | unbalancedTransaction
  /-- "input and output amount of transactions are not balanced" -/
  | unbalancedBlock
  /-- "number of inputs and outputs of base transaction is incorrect" -/
  | malformedBaseTransaction
  /-- "hash not found in blocks_height" -/
  | unknownParent
  /-- "block height overflowed" -/
  | heightOverflow
deriving DecidableEq

/-- `VerifyPow::pow_verified` for `Hash` (`blockchain.rs:94-99`):
`assert!(difficulty <= 8); self[0] & !(0b1111_1111_u8 >> difficulty) == 0`.
With `difficulty = 8` the shift `255u8 >> 8` overflows the `u8` width, which a
debug build reports as a panic; for `difficulty < 8` the complement of the
shifted byte is `255 - (255 >>> difficulty)`. -/
def Hash.pow_verified (h : Hash) (difficulty : Nat) : Except VError Bool :=
  if difficulty ≤ 8 then
    if difficulty < 8 then
      .ok (Nat.land h.firstByte (255 - (255 >>> difficulty)) == 0)
    else
      .error (.abort "attempt to shift right with overflow")
  else
    .error (.abort "assertion failed: difficulty <= 8")

/-- Association-list model of `HashMap<Hash, V>::get`. -/
def AList.get? {α : Type} : List (Hash × α) → Hash → Option α
  | [], _ => none
  | (k, v) :: rest, key => if k = key then some v else AList.get? rest key

/-- Association-list model of `HashMap<Hash, V>::insert`: the new binding is
consed at the head and shadows any older binding for the same key. -/
def AList.insert {α : Type} (m : List (Hash × α)) (k : Hash) (v : α) :
    List (Hash × α) :=
  (k, v) :: m

/-- `PublicKey` (`crypto.rs`): the opaque RSA key material is abstracted to a
natural number identifying the key pair. -/
structure PublicKey where
  material : Nat
deriving DecidableEq

/-- `PublicKey::hash` (`crypto.rs:44-52`): SHA-256 of the DER encoding of the
key. The encoding of a well-formed key always succeeds, so the `EncodingError`
path is not modelled. -/
def PublicKey.hash (pk : PublicKey) : Except VError Hash :=
  .ok (.pubKeyHash pk.material)

/-- `PublicKey::verify` (`crypto.rs:54-57`): in the idealised scheme a signature
verifies exactly when it is the signature of the matching private key over the
expected digest; any other value fails with the `InvalidSignatureError`. -/
def PublicKey.verify (pk : PublicKey) (expected : Hash) (signed : Hash) :
    Except VError Unit :=
  if signed = .sigOf pk.material expected then .ok () else .error .invalidSignature

/-- `Address` (`crypto.rs:16`): the hash of the account's public key. -/
structure Address where
  as_hash : Hash
deriving DecidableEq

/-- `TxOut` (`blockchain.rs:12-17`). -/
structure TxOut where
  receiver_address : Address
  amount : Nat
deriving DecidableEq

/-- `TxOutPtr` (`blockchain.rs:21-26`). -/
structure TxOutPtr where
  transaction_hash : Hash
  index : Nat
deriving DecidableEq

/-- `TxIn` (`blockchain.rs:30-37`); the signature field has type `Hash` in the
source. -/
structure TxIn where
  signature : Hash
  public_key : PublicKey
  source_output : TxOutPtr
deriving DecidableEq

/-- `Transaction` (`blockchain.rs:41-46`). -/
structure Transaction where
  inputs : List TxIn
  outputs : List TxOut
deriving DecidableEq

/-- `BlockDesc` (`blockchain.rs:50-55`); the nonce is a `u128`. -/
structure BlockDesc where
  parent_hash : Hash
  nonce : Nat
deriving DecidableEq

/-- `BlockBody` (`blockchain.rs:59-62`). -/
structure BlockBody where
  transactions : List Transaction
deriving DecidableEq

/-- `Block` (`blockchain.rs:66-71`). -/
structure Block where
  desc : BlockDesc
  body : BlockBody
deriving DecidableEq

/-- `Blockchain` (`blockchain.rs:75-88`). -/
structure Blockchain where
  transactions : List (Hash × Transaction)
  blocks : List (Hash × BlockDesc)
  block_heights : List (Hash × Nat)
  max_height : Nat
  max_height_block_hash : Hash
  pow_difficulty : Nat
deriving DecidableEq

/-- `TxOut::hash` (`blockchain.rs:102-109`): update with the receiver address,
then with the amount as 8 little-endian bytes (`usize`). -/
def TxOut.hash (o : TxOut) : Hash :=
  (Hash.new.updHash o.receiver_address.as_hash).updNat o.amount 8

/-- `TxIn::hash` (`blockchain.rs:112-124`): update with the signature, the hash
of the public key (whose `expect` cannot fire in the idealised model), the
referenced transaction hash, and the referenced output index as `usize` bytes.
Note that the digest covers the signature itself. -/
def TxIn.hash (i : TxIn) : Hash :=
  ((((Hash.new.updHash i.signature).updHash
      (Hash.pubKeyHash i.public_key.material)).updHash
      i.source_output.transaction_hash).updNat i.source_output.index 8)

/-- `Transaction::hash` (`blockchain.rs:141-150`): update with every input hash
in order, then every output hash in order. -/
def Transaction.hash (t : Transaction) : Hash :=
  t.outputs.foldl (fun s o => s.updHash o.hash)
    (t.inputs.foldl (fun s i => s.updHash i.hash) Hash.new)

/-- `Transaction`s output amount: `transaction.outputs.iter().map(|o| o.amount).sum()`
(`blockchain.rs:242-243`). -/
def Transaction.output_amount (t : Transaction) : Nat :=
  (t.outputs.map TxOut.amount).sum

/-- `Block::new` (`blockchain.rs:154-162`): nonce starts at 0. -/
def Block.new (transactions : List Transaction) (parent_hash : Hash) : Block :=
  { body := { transactions := transactions },
    desc := { parent_hash := parent_hash, nonce := 0 } }

/-- `Block::from_part` (`blockchain.rs:164-166`). -/
def Block.from_part (body : BlockBody) (desc : BlockDesc) : Block :=
  { body := body, desc := desc }

/-- `Block::hash` (`blockchain.rs:168-176`): update with the parent hash, every
transaction hash in order, then the nonce as 16 little-endian bytes (`u128`). -/
def Block.hash (b : Block) : Hash :=
  (b.body.transactions.foldl (fun s t => s.updHash t.hash)
    (Hash.new.updHash b.desc.parent_hash)).updNat b.desc.nonce 16

/-- `Block::base_transaction` (`blockchain.rs:178-180`):
`&self.body.transactions[0]`, a panic when the transaction list is empty. -/
def Block.base_transaction (b : Block) : Except VError Transaction :=
  match b.body.transactions with
  | [] => .error (.abort "index out of bounds: the len is 0 but the index is 0")
  | t :: _ => .ok t

/-- `TxIn::find_source` (`blockchain.rs:126-137`): look the referenced
transaction up in the in-block map first, then in the committed map; a missing
transaction is the `DanglingReferenceError`, while an out-of-bounds output index
is a panic (`&transaction.outputs[self.source_output.index]`). -/
def TxIn.find_source (i : TxIn)
    (local_transactions chain_transactions : List (Hash × Transaction)) :
    Except VError TxOut :=
  match (AList.get? local_transactions i.source_output.transaction_hash).orElse
      (fun _ => AList.get? chain_transactions i.source_output.transaction_hash) with
  | none => .error .danglingReference
  | some t =>
    match t.outputs.get? i.source_output.index with
    | none => .error (.abort "index out of bounds")
    | some o => .ok o

/-- Model of `u128::checked_add` on heights (`blockchain.rs:197`). -/
def checked_add_u128 (a b : Nat) : Option Nat :=
  if a + b < 2 ^ 128 then some (a + b) else none

/-- The closure body of the `try_fold` over a transaction's inputs inside
`Blockchain::verify` (`blockchain.rs:228-241`): resolve the source output,
compare the hash of the input's public key with the receiver address of the
source, verify the signature over the input's own hash, and add the source
amount to the running sum. -/
def Blockchain.inputStep (chain : Blockchain)
    (local_transactions : List (Hash × Transaction)) (sum : Nat) (input : TxIn) :
    Except VError Nat := do
  let input_source ← input.find_source local_transactions chain.transactions
  let key_hash ← input.public_key.hash
  if key_hash ≠ input_source.receiver_address.as_hash then
    .error .ownershipMismatch
  else do
    let _ ← input.public_key.verify input.hash input.signature
    .ok (sum + input_source.amount)

/-- `transaction.inputs.iter().try_fold(0, ..)` of `Blockchain::verify`
(`blockchain.rs:227-241`). -/
def Blockchain.transaction_input_amount (chain : Blockchain)
    (local_transactions : List (Hash × Transaction)) (t : Transaction) :
    Except VError Nat :=
  t.inputs.foldlM (chain.inputStep local_transactions) 0

/-- The `for (i, transaction) in ..enumerate()` loop of `Blockchain::verify`
(`blockchain.rs:226-253`), started at index `i`: check each transaction in
order, rejecting the first non-base transaction whose output amount exceeds its
input amount, and return the block-wide input and output totals. -/
def Blockchain.scanTransactions (chain : Blockchain)
    (local_transactions : List (Hash × Transaction)) :
    Nat → List Transaction → Except VError (Nat × Nat)
  | _, [] => .ok (0, 0)
  | i, t :: rest => do
    let transaction_input_amount ←
      chain.transaction_input_amount local_transactions t
    if i ≠ 0 ∧ t.output_amount > transaction_input_amount then
      .error .unbalancedTransaction
    else do
      let rest_totals ← chain.scanTransactions local_transactions (i + 1) rest
      .ok (transaction_input_amount + rest_totals.1,
           t.output_amount + rest_totals.2)

/-- The `transactions_in_block` map of `Blockchain::verify`
(`blockchain.rs:216-221`): every transaction of the block keyed by its hash. -/
def Block.localTransactions (block : Block) : List (Hash × Transaction) :=
  block.body.transactions.foldl (fun m t => AList.insert m t.hash t) []

/-- `Blockchain::verify` (`blockchain.rs:212-268`): PoW check, per-transaction
source/ownership/signature checks and per-transaction balance, block-wide
balance, and the base-transaction shape check, in that order. -/
def Blockchain.verify (chain : Blockchain) (block : Block) :
    Except VError Unit := do
  let pow ← block.hash.pow_verified chain.pow_difficulty
  if ¬ pow then
    .error .insufficientWork
  else do
    let totals ←
      chain.scanTransactions block.localTransactions 0 block.body.transactions
    if totals.1 ≠ totals.2 then
      .error .unbalancedBlock
    else do
      let base ← block.base_transaction
      if ¬ base.inputs.isEmpty ∨ base.outputs.length ≠ 1 then
        .error .malformedBaseTransaction
      else
        .ok ()

/-- `Blockchain::current_hash` (`blockchain.rs:186-188`). -/
def Blockchain.current_hash (chain : Blockchain) : Hash :=
  chain.max_height_block_hash

/-- `Blockchain::push` (`blockchain.rs:190-210`), in state-passing form: the
returned `Blockchain` is the state of `self` after the call, unchanged on every
error path (all error exits precede the first mutation in the source). -/
def Blockchain.push (chain : Blockchain) (block : Block) :
    Except VError BlockBody × Blockchain :=
  match chain.verify block with
  | .error e => (.error e, chain)
  | .ok () =>
    let hash := block.hash
    match AList.get? chain.block_heights block.desc.parent_hash with
    | none => (.error .unknownParent, chain)
    | some parent_height =>
      match checked_add_u128 parent_height 1 with
      | none => (.error .heightOverflow, chain)
      | some height =>
        let chain1 : Blockchain :=
          { chain with
            block_heights := AList.insert chain.block_heights hash height,
            blocks := AList.insert chain.blocks hash block.desc,
            transactions := block.body.transactions.foldl
              (fun m t => AList.insert m t.hash t) chain.transactions }
        if height > chain.max_height then
          (.ok block.body,
           { chain1 with max_height := height, max_height_block_hash := hash })
        else
          (.ok block.body, chain1)

/-- `Blockchain::TX_PER_BLOCK` (`blockchain.rs:184`). -/
def Blockchain.TX_PER_BLOCK : Nat := 16

/-- `Action` (`blockchain.rs:272-277`). -/
inductive Action where
  /-- Do nothing. -/
  | none
  /-- Ask to verify the block and add that to the blockchains. -/
  | broadcastBlock (block : Block)
deriving DecidableEq

/-- Modelled from the spec: the source declares `Blockchain::TX_PER_BLOCK` and
`Action` but contains no pending-transaction pool field and no `queue` method,
so the pool is modelled as spec section 3 describes it: a node is the ledger
together with its pending-transaction pool. -/
structure Node where
  chain : Blockchain
  pool : List Transaction
deriving DecidableEq

/-- Modelled from the spec: `queue(transaction)` is described in spec section
4.5 but absent from the source (only `TX_PER_BLOCK` and `Action` are declared).
Per the spec it appends the transaction to the pending pool; when the pool
reaches the batch size it is drained into a candidate block addressed at the
current tip and `push` (from the source) is attempted; it returns
`Action::None` while still accumulating and `Action::BroadcastBlock` when the
block is accepted; a `push` failure is surfaced to the caller and the batch is
not requeued. -/
def Node.queue (node : Node) (t : Transaction) : Except VError Action × Node :=
  let pool := node.pool ++ [t]
  if pool.length = Blockchain.TX_PER_BLOCK then
    let block := Block.new pool node.chain.current_hash
    match node.chain.push block with
    | (.ok _, chain1) =>
      (.ok (.broadcastBlock block), { chain := chain1, pool := [] })
    | (.error e, chain1) => (.error e, { chain := chain1, pool := [] })
  else
    (.ok .none, { node with pool := pool })

/-! ### Concrete fixtures

Closed inputs used by the evaluation theorems and the witnesses: a genesis-only
ledger at PoW difficulty 0, and blocks exercising each branch of `verify` and
`push`. -/

/-- A genesis block hash. -/
def gHash : Hash := Hash.raw [9]

/-- A ledger holding only the genesis entry, at PoW difficulty 0. -/
def chain0 : Blockchain :=
  { transactions := [], blocks := [], block_heights := [(gHash, 0)],
    max_height := 0, max_height_block_hash := gHash, pow_difficulty := 0 }

/-- The address of the key pair with material 1. -/
def addr1 : Address := { as_hash := Hash.pubKeyHash 1 }

/-- A well-formed base transaction: no inputs, one output of amount 0. -/
def baseTx : Transaction :=
  { inputs := [], outputs := [{ receiver_address := addr1, amount := 0 }] }

/-- A block holding only `baseTx`, extending genesis: accepted by `verify`. -/
def blockOk : Block := Block.new [baseTx] gHash

/-- A block with an empty transaction list. -/
def blockEmpty : Block := Block.new [] gHash

/-- A zero-input transaction minting 5: unbalanced as a non-base transaction. -/
def tx5 : Transaction :=
  { inputs := [], outputs := [{ receiver_address := addr1, amount := 5 }] }

/-- A block whose second transaction mints 5. -/
def blockUT : Block := Block.new [baseTx, tx5] gHash

/-- A base transaction with a single output of amount 3. -/
def base3 : Transaction :=
  { inputs := [], outputs := [{ receiver_address := addr1, amount := 3 }] }

/-- A block holding only `base3`: every transaction passes its own check but
the block totals are 0 in, 3 out. -/
def blockUB : Block := Block.new [base3] gHash

/-- A committed transaction with one output of amount 100 owned by `addr1`. -/
def txT : Transaction :=
  { inputs := [], outputs := [{ receiver_address := addr1, amount := 100 }] }

/-- The ledger key of `txT`. -/
def hT : Hash := Hash.raw [3]

/-- An input referencing output index 1 of `txT`, which has only one output. -/
def inOOB : TxIn :=
  { signature := Hash.raw [1], public_key := { material := 1 },
    source_output := { transaction_hash := hT, index := 1 } }

/-- An input referencing a transaction hash present in neither map. -/
def inMissing : TxIn :=
  { signature := Hash.raw [1], public_key := { material := 1 },
    source_output := { transaction_hash := Hash.raw [4], index := 0 } }

/-- An input spending `txT`'s output with the wrong key pair (material 2,
while the output is owned by the address of material 1). -/
def inBad : TxIn :=
  { signature := Hash.raw [1], public_key := { material := 2 },
    source_output := { transaction_hash := hT, index := 0 } }

/-- A transaction consisting of the mismatched input `inBad`. -/
def txSpend : Transaction := { inputs := [inBad], outputs := [] }

/-- `chain0` with `txT` committed. -/
def chainT : Blockchain := { chain0 with transactions := [(hT, txT)] }

/-- A committed transaction that already spends output 0 of `txT`. -/
def txSp : Transaction :=
  { inputs := [{ signature := Hash.raw [6], public_key := { material := 1 },
                 source_output := { transaction_hash := hT, index := 0 } }],
    outputs := [{ receiver_address := addr1, amount := 100 }] }

/-- The ledger key of `txSp`. -/
def hSp : Hash := Hash.raw [7]

/-- `chain0` with `txT` committed and its only output already spent by the
committed transaction `txSp`. -/
def chainC1 : Blockchain :=
  { chain0 with transactions := [(hT, txT), (hSp, txSp)] }

/-- First in-block input spending output 0 of `txT` (again), with the right
key pair. -/
def inDS1 : TxIn :=
  { signature := Hash.raw [1], public_key := { material := 1 },
    source_output := { transaction_hash := hT, index := 0 } }

/-- Second, distinct in-block input spending the same output 0 of `txT`. -/
def inDS2 : TxIn :=
  { signature := Hash.raw [2], public_key := { material := 1 },
    source_output := { transaction_hash := hT, index := 0 } }

/-- A transaction spending `txT`'s output to `addr1`. -/
def txDS1 : Transaction :=
  { inputs := [inDS1], outputs := [{ receiver_address := addr1, amount := 100 }] }

/-- A second transaction spending the same `txT` output to another address. -/
def txDS2 : Transaction :=
  { inputs := [inDS2],
    outputs := [{ receiver_address := { as_hash := Hash.raw [8] }, amount := 100 }] }

/-- A balanced block in which output 0 of `txT` — already spent by the
committed `txSp` — is spent twice more, by two distinct in-block inputs. -/
def blockDS : Block := Block.new [baseTx, txDS1, txDS2] gHash

/-- A transaction at index 0 with zero inputs but two outputs: a malformed
base transaction. -/
def badBase : Transaction :=
  { inputs := [],
    outputs := [{ receiver_address := addr1, amount := 0 },
                { receiver_address := addr1, amount := 0 }] }

/-- A transaction with no inputs and no outputs. -/
def emptyTx : Transaction := { inputs := [], outputs := [] }

/-- A node over `chain0` whose pool holds 15 transactions (a base-shaped one
first), one short of the batch size. -/
def nodeB : Node :=
  { chain := chain0, pool := baseTx :: List.replicate 14 emptyTx }

/-- The full 16-transaction batch assembled by `nodeB` on the next `queue`. -/
def poolFull : List Transaction := baseTx :: List.replicate 14 emptyTx ++ [emptyTx]

/-! ### Helper lemmas -/

/-- Reduction of `Except` bind on a success. -/
theorem except_bind_ok {α β : Type} (a : α) (f : α → Except VError β) :
    ((Except.ok a : Except VError α) >>= f) = f a := rfl

/-- Reduction of `Except` bind on an error. -/
theorem except_bind_error {α β : Type} (e : VError)
    (f : α → Except VError β) :
    ((Except.error e : Except VError α) >>= f) = .error e := rfl

/-- Unfolding of the transaction loop on a non-empty list. -/
theorem scanTransactions_cons (chain : Blockchain)
    (lt : List (Hash × Transaction)) (i : Nat) (t : Transaction)
    (rest : List Transaction) :
    chain.scanTransactions lt i (t :: rest) =
      (chain.transaction_input_amount lt t >>= fun tin =>
        if i ≠ 0 ∧ t.output_amount > tin then
          .error .unbalancedTransaction
        else
          chain.scanTransactions lt (i + 1) rest >>= fun rest_totals =>
            .ok (tin + rest_totals.1, t.output_amount + rest_totals.2)) := rfl

/-- A monadic fold over `Except` that succeeds on a prefix and then hits a
failing element fails with that element's error. -/
theorem foldlM_ok_then_error {α : Type} (f : Nat → α → Except VError Nat)
    (xs : List α) (x : α) (ys : List α) (s0 s : Nat) (e : VError)
    (hxs : List.foldlM f s0 xs = .ok s) (hx : f s x = .error e) :
    List.foldlM f s0 (xs ++ x :: ys) = .error e := by
  induction xs generalizing s0 with
  | nil =>
    simp only [List.foldlM_nil, pure] at hxs
    cases hxs
    simp [List.foldlM_cons, hx, except_bind_error]
  | cons a as ih =>
    cases hfa : f s0 a with
    | error e2 =>
      rw [List.foldlM_cons, hfa, except_bind_error] at hxs
      exact absurd hxs (by simp)
    | ok s1 =>
      rw [List.foldlM_cons, hfa, except_bind_ok] at hxs
      rw [List.cons_append, List.foldlM_cons, hfa, except_bind_ok]
      exact ih s1 hxs

/-- The transaction loop of `verify`, when it succeeds on a prefix of the
block's transactions and fails on the remainder (started at the index after
the prefix), fails on the whole list with the same error. -/
theorem scanTransactions_ok_then_error (chain : Blockchain)
    (lt : List (Hash × Transaction)) (xs ys : List Transaction)
    (i a b : Nat) (e : VError)
    (hxs : chain.scanTransactions lt i xs = .ok (a, b))
    (hys : chain.scanTransactions lt (i + xs.length) ys = .error e) :
    chain.scanTransactions lt i (xs ++ ys) = .error e := by
  induction xs generalizing i a b with
  | nil => simpa using hys
  | cons t rest ih =>
    rw [List.cons_append, scanTransactions_cons]
    rw [scanTransactions_cons] at hxs
    cases hamt : chain.transaction_input_amount lt t with
    | error e2 =>
      rw [hamt, except_bind_error] at hxs
      exact absurd hxs (by simp)
    | ok tin =>
      rw [hamt, except_bind_ok] at hxs
      rw [except_bind_ok]
      by_cases hcond : i ≠ 0 ∧ t.output_amount > tin
      · rw [if_pos hcond] at hxs
        exact absurd hxs (by simp)
      · rw [if_neg hcond] at hxs ⊢
        cases hrest : chain.scanTransactions lt (i + 1) rest with
        | error e2 =>
          rw [hrest, except_bind_error] at hxs
          exact absurd hxs (by simp)
        | ok p =>
          have hys1 : chain.scanTransactions lt (i + 1 + rest.length) ys
              = .error e := by
            have hlen : i + 1 + rest.length = i + (t :: rest).length := by
              simp [List.length_cons]; omega
            rw [hlen]; exact hys
          rw [ih (i + 1) p.1 p.2 (by simpa using hrest) hys1,
            except_bind_error]

/-- When the PoW test passes and the transaction loop fails, `verify` fails
with the loop's error. -/
theorem verify_of_scan_error (chain : Blockchain) (block : Block) (e : VError)
    (hpow : block.hash.pow_verified chain.pow_difficulty = .ok true)
    (hscan : chain.scanTransactions block.localTransactions 0
      block.body.transactions = .error e) :
    chain.verify block = .error e := by
  unfold Blockchain.verify
  rw [hpow, except_bind_ok]
  simp only [not_true, if_false, ite_false, Bool.not_true, reduceIte]
  rw [hscan, except_bind_error]

set_option maxRecDepth 4096 in
/-- For difficulties below 8, a byte that passes the PoW mask at some
difficulty passes it at every smaller difficulty. -/
theorem pow_mask_antitone :
    ∀ b < 256, ∀ d < 8, ∀ d2 < 8, d2 ≤ d →
      Nat.land b (255 - (255 >>> d)) = 0 →
      Nat.land b (255 - (255 >>> d2)) = 0 := by decide

/-! ### Claim theorems -/

/-- C2: once the PoW test has passed, `verify` rejects with the
`UnbalancedTransactionError` any block in which a transaction at a non-zero
index has an output sum strictly greater than its resolved input sum, the
transactions before it passing their per-transaction checks; and it rejects
with the `UnbalancedBlockError` any block whose transactions all pass the
per-transaction checks (so each is individually balanced) but whose aggregate
input total differs from its aggregate output total. -/
theorem verify_rejects_unbalanced (chain : Blockchain) (block : Block) :
    (∀ pre t post a b s,
      block.hash.pow_verified chain.pow_difficulty = .ok true →
      block.body.transactions = pre ++ t :: post →
      chain.scanTransactions block.localTransactions 0 pre = .ok (a, b) →
      pre ≠ [] →
      chain.transaction_input_amount block.localTransactions t = .ok s →
      t.output_amount > s →
      chain.verify block = .error .unbalancedTransaction)
    ∧ (∀ bin bout,
      block.hash.pow_verified chain.pow_difficulty = .ok true →
      chain.scanTransactions block.localTransactions 0 block.body.transactions
        = .ok (bin, bout) →
      bin ≠ bout →
      chain.verify block = .error .unbalancedBlock) := by
  constructor
  · intro pre t post a b s hpow hsplit hpre hne hamt hgt
    apply verify_of_scan_error chain block _ hpow
    rw [hsplit]
    apply scanTransactions_ok_then_error chain _ pre (t :: post) 0 a b _ hpre
    rw [scanTransactions_cons, hamt, except_bind_ok, if_pos]
    refine ⟨?_, hgt⟩
    have := List.length_pos.mpr hne
    omega
  · intro bin bout hpow hscan hne
    unfold Blockchain.verify
    rw [hpow, except_bind_ok]
    simp only [not_true, if_false, ite_false, Bool.not_true, reduceIte]
    rw [hscan, except_bind_ok, if_pos (by simpa using hne)]

/-- C3: given a block that passes `verify` and whose parent digest is in the
height map with height `ph`, `push` records height `ph + 1` for the block
(`HeightOverflowError` when `ph + 1` overflows a `u128`), returns the block
body, and advances the trusted tip (`max_height_block_hash`, returned by
`current_hash`) to this block exactly when `ph + 1` is strictly greater than
the current maximum height, leaving tip and maximum height unchanged
otherwise — so of two valid blocks reaching the same height the first-pushed
one remains the tip, and a block of strictly greater height moves it. -/
theorem push_height_and_tip (chain : Blockchain) (block : Block) (ph : Nat)
    (hv : chain.verify block = .ok ())
    (hp : AList.get? chain.block_heights block.desc.parent_hash = some ph) :
    (ph + 1 < 2 ^ 128 →
      (chain.push block).1 = .ok block.body ∧
      AList.get? (chain.push block).2.block_heights block.hash = some (ph + 1) ∧
      (ph + 1 > chain.max_height →
        (chain.push block).2.max_height_block_hash = block.hash ∧
        (chain.push block).2.max_height = ph + 1) ∧
      (¬ ph + 1 > chain.max_height →
        (chain.push block).2.max_height_block_hash = chain.max_height_block_hash ∧
        (chain.push block).2.max_height = chain.max_height)) ∧
    (¬ ph + 1 < 2 ^ 128 →
      (chain.push block).1 = .error .heightOverflow ∧
      (chain.push block).2 = chain) := by
  constructor
  · intro hlt
    have hc : checked_add_u128 ph 1 = some (ph + 1) := by
      unfold checked_add_u128
      rw [if_pos hlt]
    by_cases hgt : ph + 1 > chain.max_height
    · have hpush : chain.push block =
          (.ok block.body,
           { transactions := block.body.transactions.foldl
               (fun m t => AList.insert m t.hash t) chain.transactions,
             blocks := AList.insert chain.blocks block.hash block.desc,
             block_heights :=
               AList.insert chain.block_heights block.hash (ph + 1),
             max_height := ph + 1,
             max_height_block_hash := block.hash,
             pow_difficulty := chain.pow_difficulty }) := by
        simp only [Blockchain.push, hv, hp, hc, if_pos hgt]
      rw [hpush]
      exact ⟨rfl, by simp [AList.insert, AList.get?],
        fun _ => ⟨rfl, rfl⟩, fun hcon => absurd hgt hcon⟩
    · have hpush : chain.push block =
          (.ok block.body,
           { transactions := block.body.transactions.foldl
               (fun m t => AList.insert m t.hash t) chain.transactions,
             blocks := AList.insert chain.blocks block.hash block.desc,
             block_heights :=
               AList.insert chain.block_heights block.hash (ph + 1),
             max_height := chain.max_height,
             max_height_block_hash := chain.max_height_block_hash,
             pow_difficulty := chain.pow_difficulty }) := by
        simp only [Blockchain.push, hv, hp, hc, if_neg hgt]
      rw [hpush]
      exact ⟨rfl, by simp [AList.insert, AList.get?],
        fun hcon => absurd hcon hgt, fun _ => ⟨rfl, rfl⟩⟩
  · intro hge
    have hc : checked_add_u128 ph 1 = none := by
      unfold checked_add_u128
      rw [if_neg hge]
    have hpush : chain.push block = (.error .heightOverflow, chain) := by
      simp only [Blockchain.push, hv, hp, hc]
    rw [hpush]
    exact ⟨rfl, rfl⟩

/-- C4: whenever `push` returns an error — a failed verification, a parent
digest absent from the height map, or a height overflow — the ledger state
after the call (its transactions map, blocks map, height map, maximum height
and tip digest) is exactly the state before the call; `verify` itself is a
pure function of the ledger and the block and mutates nothing by
construction. -/
theorem push_error_leaves_state_unchanged (chain : Blockchain) (block : Block)
    (e : VError) (h : (chain.push block).1 = .error e) :
    (chain.push block).2 = chain := by
  unfold Blockchain.push at h ⊢
  cases hv : chain.verify block with
  | error e2 => simp [hv]
  | ok u =>
    cases u
    simp only [hv] at h ⊢
    cases hp : AList.get? chain.block_heights block.desc.parent_hash with
    | none => simp [hp]
    | some ph =>
      simp only [hp] at h ⊢
      cases hc : checked_add_u128 ph 1 with
      | none => simp [hc]
      | some height =>
        simp only [hc] at h ⊢
        by_cases hgt : height > chain.max_height
        · rw [if_pos hgt] at h
          exact absurd h (by simp)
        · rw [if_neg hgt] at h
          exact absurd h (by simp)

/-- C7: with the PoW test passed, a block containing an input whose public
key does not hash to the receiver address of its resolved source output is
rejected with the `OwnershipMismatchError` (the transactions before it and
the inputs before it passing their checks), for an arbitrary signature: the
ownership comparison is made before, and independently of, the signature
verification. -/
theorem verify_rejects_ownership_mismatch (chain : Blockchain) (block : Block)
    (pre post : List Transaction) (t : Transaction)
    (ins1 ins2 : List TxIn) (input : TxIn) (s a b : Nat) (src : TxOut)
    (hpow : block.hash.pow_verified chain.pow_difficulty = .ok true)
    (hsplit : block.body.transactions = pre ++ t :: post)
    (hpre : chain.scanTransactions block.localTransactions 0 pre = .ok (a, b))
    (hins : t.inputs = ins1 ++ input :: ins2)
    (hins1 : List.foldlM (chain.inputStep block.localTransactions) 0 ins1
      = .ok s)
    (hfind : input.find_source block.localTransactions chain.transactions
      = .ok src)
    (hmm : Hash.pubKeyHash input.public_key.material
      ≠ src.receiver_address.as_hash) :
    chain.verify block = .error .ownershipMismatch := by
  have hstep : chain.inputStep block.localTransactions s input
      = .error .ownershipMismatch := by
    unfold Blockchain.inputStep
    rw [hfind, except_bind_ok,
      show input.public_key.hash
        = Except.ok (Hash.pubKeyHash input.public_key.material) from rfl,
      except_bind_ok, if_pos hmm]
  have hamt : chain.transaction_input_amount block.localTransactions t
      = .error .ownershipMismatch := by
    unfold Blockchain.transaction_input_amount
    rw [hins]
    exact foldlM_ok_then_error _ ins1 input ins2 0 s _ hins1 hstep
  apply verify_of_scan_error chain block _ hpow
  rw [hsplit]
  apply scanTransactions_ok_then_error chain _ pre (t :: post) 0 a b _ hpre
  rw [scanTransactions_cons, hamt, except_bind_error]

/-- C10: `pow_verified` is antitone in the difficulty: for every digest whose
first byte is a byte value and all difficulties `d2 ≤ d ≤ 8`, a digest that
passes proof-of-work at difficulty `d` also passes it at difficulty `d2`. -/
theorem pow_verified_antitone (h : Hash) (d d2 : Nat)
    (hb : h.firstByte < 256) (hdd : d2 ≤ d) (hd8 : d ≤ 8)
    (hok : h.pow_verified d = .ok true) : h.pow_verified d2 = .ok true := by
  have hd : d < 8 := by
    by_contra hcon
    have hd8eq : d = 8 := by omega
    subst hd8eq
    simp [Hash.pow_verified] at hok
  have hd2 : d2 < 8 := lt_of_le_of_lt hdd hd
  unfold Hash.pow_verified at hok ⊢
  rw [if_pos (by omega : d ≤ 8), if_pos hd] at hok
  rw [if_pos (by omega : d2 ≤ 8), if_pos hd2]
  simp only [Except.ok.injEq, beq_iff_eq] at hok ⊢
  exact pow_mask_antitone h.firstByte hb d hd d2 hd2 hdd hok

/-- C9: `queue` appends the transaction to the pending pool and returns
`Action::None` while the pool is shorter than the batch size
`TX_PER_BLOCK = 16`; when the pool reaches the batch size it is drained into
a candidate block whose parent is the current tip, `push` is attempted, and
an accepted block is returned as `Action::BroadcastBlock` with the pool
emptied. -/
theorem queue_accumulates_and_batches (node : Node) (t : Transaction) :
    ((node.pool ++ [t]).length ≠ Blockchain.TX_PER_BLOCK →
      node.queue t = (.ok .none, { node with pool := node.pool ++ [t] })) ∧
    (∀ body chain1, (node.pool ++ [t]).length = Blockchain.TX_PER_BLOCK →
      node.chain.push (Block.new (node.pool ++ [t]) node.chain.current_hash)
        = (.ok body, chain1) →
      node.queue t =
        (.ok (.broadcastBlock
          (Block.new (node.pool ++ [t]) node.chain.current_hash)),
         { chain := chain1, pool := [] })) := by
  constructor
  · intro hne
    simp only [Node.queue, if_neg hne]
  · intro body chain1 hlen hpush
    simp only [Node.queue, if_pos hlen, hpush]

/-- C1: the code contains no double-spend check. In `blockDS`, output 0 of
the committed transaction `txT` — already spent by the committed transaction
`txSp` — is spent again by the two distinct in-block inputs `inDS1` and
`inDS2`; both inputs resolve through `find_source` to that same output and
pass the ownership comparison, and `verify` rejects the block only with the
`InvalidSignatureError` — the rejection every input-bearing block receives,
because the digest a `TxIn` signature must cover includes the signature
itself — not with any rejection of the reuse of the `TxOutPtr`. -/
theorem double_spend_inputs_resolve_and_only_signature_rejects :
    inDS1.find_source blockDS.localTransactions chainC1.transactions
      = .ok { receiver_address := addr1, amount := 100 } ∧
    inDS2.find_source blockDS.localTransactions chainC1.transactions
      = .ok { receiver_address := addr1, amount := 100 } ∧
    chainC1.verify blockDS = .error .invalidSignature := ⟨rfl, rfl, rfl⟩

/-- C5: `find_source` returns the `DanglingReferenceError` when neither map
contains the referenced transaction digest, but when the referenced
transaction exists and the output index is out of bounds the code panics on
the slice index (`&transaction.outputs[index]`) instead of returning the
`DanglingReferenceError` the claim describes. -/
theorem find_source_dangling_and_out_of_bounds :
    TxIn.find_source inMissing [] [(hT, txT)] = .error .danglingReference ∧
    TxIn.find_source inOOB [] [(hT, txT)]
      = .error (.abort "index out of bounds") := ⟨rfl, rfl⟩

/-- C6: at difficulty 8 `pow_verified` never tests the first byte:
`0b1111_1111u8 >> 8` overflows the `u8` shift width, which panics in a debug
build (and in a release build masks the shift amount to 0, making every
digest pass) — both for a digest whose first byte is zero, which the claim
says must pass, and for one whose first byte is 1, which the claim says must
fail. -/
theorem pow_verified_difficulty_eight_aborts :
    Hash.pow_verified (Hash.raw (List.replicate 32 0)) 8
      = .error (.abort "attempt to shift right with overflow") ∧
    Hash.pow_verified (Hash.raw (1 :: List.replicate 31 0)) 8
      = .error (.abort "attempt to shift right with overflow") := ⟨rfl, rfl⟩

/-- C8: `verify` panics on a block with an empty transaction list — the
balance checks pass vacuously and `base_transaction` then indexes
`transactions[0]` — instead of returning a typed error; on a non-empty block
whose transaction at index 0 has the wrong shape it does reject with the
`MalformedBaseTransactionError`. -/
theorem verify_empty_block_aborts :
    chain0.verify blockEmpty
      = .error (.abort "index out of bounds: the len is 0 but the index is 0") ∧
    chain0.verify (Block.new [badBase] gHash)
      = .error .malformedBaseTransaction := ⟨rfl, rfl⟩

/-! ### Witnesses -/

/-- Witness for C2 at concrete inputs: in `blockUT` the transaction at index
1 mints 5 from no inputs; in `blockUB` every transaction passes its own check
but the block totals are 0 against 3. -/
theorem verify_rejects_unbalanced_witness :
    chain0.verify blockUT = .error .unbalancedTransaction ∧
    chain0.verify blockUB = .error .unbalancedBlock := by
  constructor
  · exact (verify_rejects_unbalanced chain0 blockUT).1 [baseTx] tx5 [] 0 0 0
      rfl rfl rfl (by decide) rfl (by decide)
  · exact (verify_rejects_unbalanced chain0 blockUB).2 0 3 rfl rfl (by decide)

/-- Witness for C3 at concrete inputs: pushing `blockOk` onto the genesis
ledger records height 1 and advances the tip to the block. -/
theorem push_height_and_tip_witness :
    (chain0.push blockOk).1 = .ok blockOk.body ∧
    AList.get? (chain0.push blockOk).2.block_heights blockOk.hash = some 1 ∧
    (chain0.push blockOk).2.max_height_block_hash = blockOk.hash ∧
    (chain0.push blockOk).2.max_height = 1 := by
  have h := (push_height_and_tip chain0 blockOk 0 rfl rfl).1 (by norm_num)
  exact ⟨h.1, h.2.1, (h.2.2.1 (by decide)).1, (h.2.2.1 (by decide)).2⟩

/-- Witness for C4 at concrete inputs: pushing `blockOk` onto a ledger with
an empty height map fails with the `UnknownParentError` and leaves the ledger
unchanged. -/
theorem push_error_leaves_state_unchanged_witness :
    ((({ chain0 with block_heights := [] } : Blockchain).push blockOk).1
      = .error .unknownParent) ∧
    (({ chain0 with block_heights := [] } : Blockchain).push blockOk).2
      = { chain0 with block_heights := [] } :=
  ⟨rfl, push_error_leaves_state_unchanged _ blockOk .unknownParent rfl⟩

/-- Witness for C7 at concrete inputs: a block spending `txT`'s output (owned
by the key with material 1) with the key of material 2 is rejected with the
`OwnershipMismatchError`. -/
theorem verify_rejects_ownership_mismatch_witness :
    chainT.verify (Block.new [txSpend] gHash) = .error .ownershipMismatch :=
  verify_rejects_ownership_mismatch chainT (Block.new [txSpend] gHash)
    [] [] txSpend [] [] inBad 0 0 0 { receiver_address := addr1, amount := 100 }
    rfl rfl rfl rfl rfl rfl (by decide)

/-- Witness for C9 at concrete inputs: queueing onto an empty pool returns
`Action::None`; queueing the 16th transaction onto `nodeB` drains the pool
into a block on the genesis tip and returns it as `Action::BroadcastBlock`. -/
theorem queue_accumulates_and_batches_witness :
    (({ chain := chain0, pool := [] } : Node).queue baseTx
      = (.ok .none, { chain := chain0, pool := [baseTx] })) ∧
    nodeB.queue emptyTx
      = (.ok (.broadcastBlock (Block.new poolFull gHash)),
         { chain := (chain0.push (Block.new poolFull gHash)).2, pool := [] }) := by
  constructor
  · exact (queue_accumulates_and_batches
      ({ chain := chain0, pool := [] } : Node) baseTx).1 (by decide)
  · exact (queue_accumulates_and_batches nodeB emptyTx).2
      (Block.new poolFull gHash).body
      (chain0.push (Block.new poolFull gHash)).2 (by decide) rfl

/-- Witness for C10 at concrete inputs: the digest whose first byte is
`0b0001_1010` (the repository's own test vector) passes at difficulty 3 and
therefore also at difficulty 1. -/
theorem pow_verified_antitone_witness :
    (Hash.raw [26]).firstByte < 256 ∧ (1 : Nat) ≤ 3 ∧ (3 : Nat) ≤ 8 ∧
    Hash.pow_verified (Hash.raw [26]) 3 = .ok true ∧
    Hash.pow_verified (Hash.raw [26]) 1 = .ok true :=
  ⟨by decide, by decide, by decide, rfl,
   pow_verified_antitone (Hash.raw [26]) 3 1 (by decide) (by decide)
     (by decide) rfl⟩

end Tipchune
